import Mathlib

/-!
Verification of the schema-drift check in `src/welds/src/check/mod.rs`.

The file shallowly embeds the diffing core: column classification
(`struct_added`, `struct_missing`, `zip_by_name`, `build_diff`,
`build_diffs`), the dialect-specific namespace defaulting
(`unwrap_to_default_namespace`), and the auditor (`schema`).
Rust slices become Lean lists, the async catalog call becomes a function
argument returning `Except`, and the out-of-bounds panic on an empty
identifier path becomes an outer `Option`.
-/

/-- One column as introspected from the live database
(`crate::detect::ColumnDef`); the fields are the ones the check reads:
`name`, `ty` and `null` (spec section 3, DatabaseColumn). -/
structure ColumnDef where
  name : String
  ty : String
  null : Bool
deriving DecidableEq, Repr

/-- One field of the compiled model (`crate::model_traits::Column`);
the check reads its `name()`, `rust_type()` and `nullable()` accessors
(spec section 3, ModelColumn). -/
structure Column where
  name : String
  rust_type : String
  nullable : Bool
deriving DecidableEq, Repr

/-- A group of type names considered interchangeable for one dialect
(`crate::writers::types::Pair`; spec section 3, TypeEquivalenceGroup). -/
abbrev Pair := List String

/-- Modelled from the spec: `are_equivalent_types` lives in
`crate::writers::types`, which is outside the given sources. Per the spec
(section 4.1): exact string equality is always equivalent, short-circuiting
before the groups are consulted; otherwise the two names are equivalent iff
some group in the sequence contains both, by case-sensitive exact match. -/
def are_equivalent_types (pairs : List Pair) (t1 t2 : String) : Bool :=
  t1 == t2 || pairs.any (fun g => g.contains t1 && g.contains t2)

/-- A detected difference on one name-matched column
(built in `build_diff`, fields as constructed there). -/
structure Diff where
  column : String
  db_type : String
  db_nullable : Bool
  welds_type : String
  welds_nullable : Bool
  type_changed : Bool
deriving DecidableEq, Repr

/-- Modelled from the spec: the `Issue` sum type lives in
`src/welds/src/check/issue.rs`, which is outside the given sources.
Spec section 3 lists the four variants and their payloads; the constructor
names follow the constructor calls in `check/mod.rs`
(`Issue::missing_table`, `Issue::struct_added`, `Issue::changed`,
`Issue::struct_missing`). -/
inductive Issue where
  | missing_table (ns : Option String) (tablename : String)
  | struct_added (ns : Option String) (tablename : String) (column : Column)
  | changed (ns : Option String) (tablename : String) (diff : Diff)
  | struct_missing (ns : Option String) (tablename : String) (column : ColumnDef)
deriving DecidableEq, Repr

/-- The SQL engine family (`crate::Syntax`, spelled `Dialect` here because
the Rust name collides with a Lean builtin). -/
inductive Dialect where
  | Mssql
  | Postgres
  | Mysql
  | Sqlite
deriving DecidableEq, Repr

/-- The catalog lookup result (`TableDef` from `crate::detect`); the check
only reads its ordered column list via `.columns()`. -/
structure TableDef where
  columns : List ColumnDef
deriving DecidableEq, Repr

/-- `unwrap_to_default_namespace` from `check/mod.rs`: keeps a declared
namespace, otherwise applies the dialect default. -/
def unwrap_to_default_namespace (ns : Option String) (d : Dialect) : Option String :=
  if ns.isSome then ns
  else
    match d with
    | .Mssql => some "dbo"
    | .Postgres => some "public"
    | .Mysql => none
    | .Sqlite => none

/-- `struct_missing` from `check/mod.rs`: database columns whose name no
model column carries. -/
def struct_missing (table_cols : List ColumnDef) (model_cols : List Column) :
    List ColumnDef :=
  table_cols.filter (fun tc => !(model_cols.any (fun x => x.name == tc.name)))

/-- `struct_added` from `check/mod.rs`: model columns whose name no
database column carries. -/
def struct_added (table_cols : List ColumnDef) (model_cols : List Column) :
    List Column :=
  model_cols.filter (fun mc => !(table_cols.any (fun x => x.name == mc.name)))

/-- `zip_by_name` from `check/mod.rs`: for each model column, find the
first database column of the same name; keep the pairs where one exists. -/
def zip_by_name (table_cols : List ColumnDef) (model_cols : List Column) :
    List (ColumnDef × Column) :=
  (model_cols.map
      (fun mc => (table_cols.find? (fun x => x.name == mc.name), mc))).filterMap
    (fun x => match x.1 with
      | some d => some (d, x.2)
      | none => none)

/-- `build_diff` from `check/mod.rs`: emits a `Diff` when the types are not
equivalent or the nullability flags differ; `type_changed` records only the
type mismatch. -/
def build_diff (pairs : List Pair) (dbcol : ColumnDef) (field : Column) :
    Option Diff :=
  let type_changed := !(are_equivalent_types pairs dbcol.ty field.rust_type)
  let nullable_chagned := dbcol.null != field.nullable
  if type_changed || nullable_chagned then
    some
      { column := dbcol.name
        db_type := dbcol.ty
        db_nullable := dbcol.null
        welds_type := field.rust_type
        welds_nullable := field.nullable
        type_changed := type_changed }
  else
    none

/-- `build_diffs` from `check/mod.rs`: runs `build_diff` over the
name-matched pairs. -/
def build_diffs (pairs : List Pair) (table_cols : List ColumnDef)
    (model_cols : List Column) : List Diff :=
  (zip_by_name table_cols model_cols).filterMap
    (fun x => build_diff pairs x.1 x.2)

/-- `schema` from `check/mod.rs`. The model schema is given by its
identifier path and columns, the client by its dialect and the catalog
lookup `find_table` (an `Except` for the fallible async call). The outer
`Option` is `none` exactly when `identifier_parts[0]` would panic, i.e.
when the identifier path is empty. -/
def schema {ε : Type} (identifier : List String) (model_cols : List Column)
    (d : Dialect) (pairs : List Pair)
    (find_table : Option String → String → Except ε (Option TableDef)) :
    Option (Except ε (List Issue)) :=
  let identifier_parts := identifier.reverse
  match identifier_parts.head? with
  | none => none
  | some tablename =>
    let ns := identifier_parts.get? 1
    let ns := unwrap_to_default_namespace ns d
    some
      (match find_table ns tablename with
      | .error e => .error e
      | .ok none => .ok [Issue.missing_table ns tablename]
      | .ok (some tabledef) =>
        let table_cols := tabledef.columns
        .ok
          ((struct_added table_cols model_cols).map
              (fun x => Issue.struct_added ns tablename x)
            ++ (build_diffs pairs table_cols model_cols).map
              (fun x => Issue.changed ns tablename x)
            ++ (struct_missing table_cols model_cols).map
              (fun x => Issue.struct_missing ns tablename x)))

/-- The position of an issue's category in the order the auditor appends
them: added-in-model, then changed, then missing-in-model. -/
def issue_category : Issue → Nat
  | .missing_table .. => 0
  | .struct_added .. => 1
  | .changed .. => 2
  | .struct_missing .. => 3

theorem mem_struct_added_iff {tcs : List ColumnDef} {mcs : List Column} {mc : Column} :
    mc ∈ struct_added tcs mcs ↔ mc ∈ mcs ∧ ∀ tc ∈ tcs, tc.name ≠ mc.name := by
  simp [struct_added, List.mem_filter, List.any_eq_true]

theorem mem_struct_missing_iff {tcs : List ColumnDef} {mcs : List Column} {tc : ColumnDef} :
    tc ∈ struct_missing tcs mcs ↔ tc ∈ tcs ∧ ∀ mc ∈ mcs, mc.name ≠ tc.name := by
  simp [struct_missing, List.mem_filter, List.any_eq_true]

theorem zip_by_name_eq (tcs : List ColumnDef) (mcs : List Column) :
    zip_by_name tcs mcs = mcs.filterMap
      (fun mc => (tcs.find? (fun x => x.name == mc.name)).map (fun d => (d, mc))) := by
  unfold zip_by_name
  rw [List.filterMap_map]
  congr 1
  funext mc
  simp only [Function.comp]
  cases tcs.find? (fun x => x.name == mc.name) <;> rfl

theorem mem_zip_by_name {tcs : List ColumnDef} {mcs : List Column} {p : ColumnDef × Column}
    (h : p ∈ zip_by_name tcs mcs) :
    p.2 ∈ mcs ∧ p.1 ∈ tcs ∧ p.1.name = p.2.name := by
  rw [zip_by_name_eq, List.mem_filterMap] at h
  obtain ⟨mc, hmc, hf⟩ := h
  cases hfind : tcs.find? (fun x => x.name == mc.name) with
  | none => rw [hfind] at hf; cases hf
  | some dcol =>
    rw [hfind] at hf
    cases hf
    refine ⟨hmc, List.mem_of_find?_eq_some hfind, ?_⟩
    have := List.find?_some hfind
    exact beq_iff_eq.mp this

theorem build_diff_eq_ite (pairs : List Pair) (dbcol : ColumnDef) (field : Column) :
    build_diff pairs dbcol field =
      if (!(are_equivalent_types pairs dbcol.ty field.rust_type))
          || (dbcol.null != field.nullable) then
        some
          { column := dbcol.name
            db_type := dbcol.ty
            db_nullable := dbcol.null
            welds_type := field.rust_type
            welds_nullable := field.nullable
            type_changed := !(are_equivalent_types pairs dbcol.ty field.rust_type) }
      else none := rfl

theorem build_diff_some {pairs : List Pair} {dbcol : ColumnDef} {field : Column} {d : Diff}
    (h : build_diff pairs dbcol field = some d) :
    d.column = dbcol.name ∧
      d.type_changed = !(are_equivalent_types pairs dbcol.ty field.rust_type) := by
  rw [build_diff_eq_ite] at h
  split at h
  · cases h; exact ⟨rfl, rfl⟩
  · cases h

theorem build_diffs_eq (pairs : List Pair) (tcs : List ColumnDef) (mcs : List Column) :
    build_diffs pairs tcs mcs = mcs.filterMap
      (fun mc => (tcs.find? (fun x => x.name == mc.name)).bind
        (fun dbc => build_diff pairs dbc mc)) := by
  unfold build_diffs
  rw [zip_by_name_eq, List.filterMap_filterMap]
  congr 1
  funext mc
  cases tcs.find? (fun x => x.name == mc.name) <;> rfl

theorem mem_build_diffs {pairs : List Pair} {tcs : List ColumnDef} {mcs : List Column}
    {d : Diff} (h : d ∈ build_diffs pairs tcs mcs) :
    ∃ dbcol mc, dbcol ∈ tcs ∧ mc ∈ mcs ∧ dbcol.name = mc.name ∧
      build_diff pairs dbcol mc = some d := by
  unfold build_diffs at h
  rw [List.mem_filterMap] at h
  obtain ⟨p, hp, hd⟩ := h
  obtain ⟨h2, h1, hname⟩ := mem_zip_by_name hp
  exact ⟨p.1, p.2, h1, h2, hname, hd⟩

theorem changed_name_matched {pairs : List Pair} {tcs : List ColumnDef} {mcs : List Column}
    {name : String} (h : name ∈ (build_diffs pairs tcs mcs).map Diff.column) :
    (∃ tc ∈ tcs, tc.name = name) ∧ (∃ mc ∈ mcs, mc.name = name) := by
  rw [List.mem_map] at h
  obtain ⟨d, hd, hcol⟩ := h
  obtain ⟨dbcol, mc, htc, hmc, hname, hbd⟩ := mem_build_diffs hd
  have hc := (build_diff_some hbd).1
  exact ⟨⟨dbcol, htc, by rw [← hcol, hc]⟩, ⟨mc, hmc, by rw [← hcol, hc, hname]⟩⟩

theorem added_not_missing {tcs : List ColumnDef} {mcs : List Column} {name : String}
    (hA : name ∈ (struct_added tcs mcs).map Column.name) :
    name ∉ (struct_missing tcs mcs).map ColumnDef.name := by
  intro hM
  rw [List.mem_map] at hA hM
  obtain ⟨mc, hmc, hmcn⟩ := hA
  obtain ⟨tc, htc, htcn⟩ := hM
  obtain ⟨hmc', hnone⟩ := mem_struct_added_iff.mp hmc
  obtain ⟨htc', _⟩ := mem_struct_missing_iff.mp htc
  exact hnone tc htc' (by rw [htcn, hmcn])

theorem added_not_changed {pairs : List Pair} {tcs : List ColumnDef} {mcs : List Column}
    {name : String} (hA : name ∈ (struct_added tcs mcs).map Column.name) :
    name ∉ (build_diffs pairs tcs mcs).map Diff.column := by
  intro hC
  rw [List.mem_map] at hA
  obtain ⟨mc, hmc, hmcn⟩ := hA
  obtain ⟨_, hnone⟩ := mem_struct_added_iff.mp hmc
  obtain ⟨⟨tc, htc, htcn⟩, _⟩ := changed_name_matched hC
  exact hnone tc htc (by rw [htcn, hmcn])

theorem missing_not_changed {pairs : List Pair} {tcs : List ColumnDef} {mcs : List Column}
    {name : String} (hM : name ∈ (struct_missing tcs mcs).map ColumnDef.name) :
    name ∉ (build_diffs pairs tcs mcs).map Diff.column := by
  intro hC
  rw [List.mem_map] at hM
  obtain ⟨tc, htc, htcn⟩ := hM
  obtain ⟨_, hnone⟩ := mem_struct_missing_iff.mp htc
  obtain ⟨_, ⟨mc, hmc, hmcn⟩⟩ := changed_name_matched hC
  exact hnone mc hmc (by rw [hmcn, htcn])

/-- Claim C2: within one audit the three column classifications are pairwise
disjoint by column name: any name is in at most one of added-in-model,
changed, missing-in-model. -/
theorem classification_sets_pairwise_disjoint (pairs : List Pair)
    (tcs : List ColumnDef) (mcs : List Column) (name : String) :
    (if name ∈ (struct_added tcs mcs).map Column.name then 1 else 0)
      + (if name ∈ (build_diffs pairs tcs mcs).map Diff.column then 1 else 0)
      + (if name ∈ (struct_missing tcs mcs).map ColumnDef.name then 1 else 0)
      ≤ 1 := by
  by_cases hA : name ∈ (struct_added tcs mcs).map Column.name
  · have h1 := @added_not_changed pairs _ _ _ hA
    have h2 := added_not_missing hA
    simp [hA, h1, h2]
  · by_cases hC : name ∈ (build_diffs pairs tcs mcs).map Diff.column
    · by_cases hM : name ∈ (struct_missing tcs mcs).map ColumnDef.name
      · exact absurd hC (missing_not_changed hM)
      · simp [hA, hC, hM]
    · by_cases hM : name ∈ (struct_missing tcs mcs).map ColumnDef.name <;>
        simp [hA, hC, hM]

/-- Claim C9: the type-equivalence predicate is reflexive for any groups: exact
string equality short-circuits before the groups are consulted. -/
theorem are_equivalent_types_refl (pairs : List Pair) (t : String) :
    are_equivalent_types pairs t t = true := by
  simp [are_equivalent_types]

/-- Claim C5: a name-matched pair yields a `Diff` iff the types are not
equivalent or the nullability flags differ, and the emitted Diff's
`type_changed` is true iff the types are not equivalent (nullability plays
no part in it). -/
theorem build_diff_characterization (pairs : List Pair) (dbcol : ColumnDef)
    (field : Column) :
    ((∃ d, build_diff pairs dbcol field = some d) ↔
      (are_equivalent_types pairs dbcol.ty field.rust_type = false ∨
        dbcol.null ≠ field.nullable))
    ∧ (∀ d, build_diff pairs dbcol field = some d →
        (d.type_changed = true ↔
          are_equivalent_types pairs dbcol.ty field.rust_type = false)) := by
  constructor
  · rw [build_diff_eq_ite]
    cases heq : are_equivalent_types pairs dbcol.ty field.rust_type <;>
      cases hdb : dbcol.null <;> cases hfn : field.nullable <;> simp
  · intro d hd
    have := (build_diff_some hd).2
    rw [this]
    cases are_equivalent_types pairs dbcol.ty field.rust_type <;> simp

theorem build_diff_characterization_witness :
    are_equivalent_types [] "T" "T" = false ∨ true ≠ false :=
  (build_diff_characterization [] ⟨"a", "T", true⟩ ⟨"a", "T", false⟩).1.mp
    ⟨_, rfl⟩

/-- Claim C7: when the two column lists share no names, every model column is
added-in-model (in model order), every database column is
missing-in-model (in database order), and nothing is changed. -/
theorem disjoint_names_classification (pairs : List Pair) (tcs : List ColumnDef)
    (mcs : List Column) (h : ∀ tc ∈ tcs, ∀ mc ∈ mcs, tc.name ≠ mc.name) :
    struct_added tcs mcs = mcs ∧ struct_missing tcs mcs = tcs ∧
      build_diffs pairs tcs mcs = [] := by
  refine ⟨?_, ?_, ?_⟩
  · rw [struct_added, List.filter_eq_self]
    intro mc hmc
    simp only [Bool.not_eq_true', List.any_eq_false]
    intro tc htc
    simp [h tc htc mc hmc]
  · rw [struct_missing, List.filter_eq_self]
    intro tc htc
    simp only [Bool.not_eq_true', List.any_eq_false]
    intro mc hmc
    simp only [beq_iff_eq]
    exact fun hn => h tc htc mc hmc hn.symm
  · rcases hd : build_diffs pairs tcs mcs with _ | ⟨d, rest⟩
    · rfl
    · exfalso
      have hdm : d ∈ build_diffs pairs tcs mcs := by rw [hd]; exact List.mem_cons_self d rest
      obtain ⟨dbcol, mc, htc, hmc, hname, _⟩ := mem_build_diffs hdm
      exact h dbcol htc mc hmc hname

theorem disjoint_names_classification_witness :
    struct_added [⟨"a", "T", false⟩] [⟨"b", "X", true⟩] = [⟨"b", "X", true⟩] ∧
      struct_missing [⟨"a", "T", false⟩] [⟨"b", "X", true⟩] = [⟨"a", "T", false⟩] ∧
      build_diffs [] [⟨"a", "T", false⟩] [⟨"b", "X", true⟩] = [] :=
  disjoint_names_classification [] [⟨"a", "T", false⟩] [⟨"b", "X", true⟩]
    (by decide)

theorem map_filterMap_sublist {α β γ : Type} (F : α → Option β) (g : β → γ)
    (f : α → γ) (hk : ∀ a b, F a = some b → g b = f a) :
    ∀ l : List α, List.Sublist ((l.filterMap F).map g) (l.map f)
  | [] => List.Sublist.refl _
  | a :: l => by
    cases hFa : F a with
    | none =>
      rw [List.filterMap_cons, hFa, List.map_cons]
      exact List.Sublist.cons _ (map_filterMap_sublist F g f hk l)
    | some b =>
      rw [List.filterMap_cons, hFa, List.map_cons, List.map_cons, hk a b hFa]
      exact List.Sublist.cons₂ _ (map_filterMap_sublist F g f hk l)

/-- Claim C4, amended: the changed set is produced by iterating the model
columns in their order, keeping each model column whose name finds a
database column (first database occurrence wins); consequently the emitted
diffs appear in the relative order of the corresponding model columns. -/
theorem build_diffs_follow_model_order (pairs : List Pair) (tcs : List ColumnDef)
    (mcs : List Column) :
    build_diffs pairs tcs mcs = mcs.filterMap
      (fun mc => (tcs.find? (fun x => x.name == mc.name)).bind
        (fun dbc => build_diff pairs dbc mc))
    ∧ List.Sublist ((build_diffs pairs tcs mcs).map Diff.column)
        (mcs.map Column.name) := by
  refine ⟨build_diffs_eq pairs tcs mcs, ?_⟩
  rw [build_diffs_eq]
  apply map_filterMap_sublist
  intro mc d h
  cases hf : tcs.find? (fun x => x.name == mc.name) with
  | none => rw [hf] at h; cases h
  | some dbc =>
    rw [hf] at h
    have h' : build_diff pairs dbc mc = some d := h
    rw [(build_diff_some h').1]
    have hb := List.find?_some hf
    exact beq_iff_eq.mp hb

/-- Claim C4 counterexample: with database columns named [a, b] and model columns
named [b, a], all four type strings distinct and no groups, both matched
pairs mismatch; the two diffs come out in the model columns' order b, a —
not a subsequence of the database columns' order a, b. -/
theorem build_diffs_db_order_counterexample :
    (build_diffs [] [⟨"a", "T", false⟩, ⟨"b", "U", false⟩]
        [⟨"b", "X", false⟩, ⟨"a", "Y", false⟩]).map Diff.column = ["b", "a"]
    ∧ ([⟨"a", "T", false⟩, ⟨"b", "U", false⟩] : List ColumnDef).map
        ColumnDef.name = ["a", "b"]
    ∧ ¬ List.Sublist
        ((build_diffs [] [⟨"a", "T", false⟩, ⟨"b", "U", false⟩]
          [⟨"b", "X", false⟩, ⟨"a", "Y", false⟩]).map Diff.column)
        (([⟨"a", "T", false⟩, ⟨"b", "U", false⟩] : List ColumnDef).map
          ColumnDef.name) := by
  refine ⟨rfl, rfl, ?_⟩
  decide

/-- Claim C1: when the catalog lookup succeeds but reports the table absent, the
audit returns exactly the single `missing_table` issue for the resolved
namespace and table name, whatever the model's columns are. -/
theorem schema_missing_table {ε : Type} (identifier : List String)
    (cols : List Column) (d : Dialect) (pairs : List Pair)
    (f : Option String → String → Except ε (Option TableDef))
    (t : String) (rest : List String)
    (h : identifier.reverse = t :: rest)
    (hf : f (unwrap_to_default_namespace (identifier.reverse.get? 1) d) t =
      .ok none) :
    schema identifier cols d pairs f =
      some (.ok [Issue.missing_table
        (unwrap_to_default_namespace (identifier.reverse.get? 1) d) t]) := by
  rw [h] at hf
  simp only [schema, h, List.head?_cons, hf]

theorem schema_missing_table_witness :
    schema ["public", "users"]
        [⟨"id", "i32", false⟩] Dialect.Postgres []
        (fun _ _ => (.ok none : Except String (Option TableDef))) =
      some (.ok [Issue.missing_table
        (unwrap_to_default_namespace
          ((["public", "users"] : List String).reverse.get? 1)
          Dialect.Postgres) "users"]) :=
  schema_missing_table ["public", "users"] [⟨"id", "i32", false⟩]
    Dialect.Postgres [] (fun _ _ => .ok none) "users" ["public"] rfl rfl

/-- Claim C8: when the catalog lookup fails, the audit propagates exactly that
failure and returns no issues: the result is the unchanged error. -/
theorem schema_propagates_failure {ε : Type} (identifier : List String)
    (cols : List Column) (d : Dialect) (pairs : List Pair)
    (f : Option String → String → Except ε (Option TableDef))
    (t : String) (rest : List String) (e : ε)
    (h : identifier.reverse = t :: rest)
    (hf : f (unwrap_to_default_namespace (identifier.reverse.get? 1) d) t =
      .error e) :
    schema identifier cols d pairs f = some (.error e) := by
  rw [h] at hf
  simp only [schema, h, List.head?_cons, hf]

theorem schema_propagates_failure_witness :
    schema ["users"] [⟨"id", "i32", false⟩] Dialect.Sqlite []
        (fun _ _ => .error "connection refused") =
      some (.error "connection refused") :=
  schema_propagates_failure ["users"] [⟨"id", "i32", false⟩] Dialect.Sqlite []
    (fun _ _ => .error "connection refused") "users" [] "connection refused"
    rfl rfl

/-- Claim C6: with a single-segment identifier the catalog lookup receives the
dialect default namespace — "dbo" for Mssql, "public" for Postgres, none
for Mysql and Sqlite (observed through a catalog stub that returns its
namespace argument as the error); with a declared namespace, that
namespace is passed through unchanged for every dialect. -/
theorem schema_default_namespace (t ns : String) (cols : List Column)
    (pairs : List Pair) (d : Dialect) :
    unwrap_to_default_namespace none Dialect.Mssql = some "dbo"
    ∧ unwrap_to_default_namespace none Dialect.Postgres = some "public"
    ∧ unwrap_to_default_namespace none Dialect.Mysql = none
    ∧ unwrap_to_default_namespace none Dialect.Sqlite = none
    ∧ unwrap_to_default_namespace (some ns) d = some ns
    ∧ schema [t] cols Dialect.Mssql pairs
        (fun n _ => Except.error n) = some (.error (some "dbo"))
    ∧ schema [t] cols Dialect.Postgres pairs
        (fun n _ => Except.error n) = some (.error (some "public"))
    ∧ schema [t] cols Dialect.Mysql pairs
        (fun n _ => Except.error n) = some (.error (none : Option String))
    ∧ schema [t] cols Dialect.Sqlite pairs
        (fun n _ => Except.error n) = some (.error (none : Option String))
    ∧ schema [ns, t] cols d pairs
        (fun n _ => Except.error n) = some (.error (some ns)) := by
  refine ⟨rfl, rfl, rfl, rfl, rfl, ?_, ?_, ?_, ?_, ?_⟩ <;>
    simp [schema, unwrap_to_default_namespace]

theorem pairwise_const_cat (l : List Issue) (k : Nat)
    (hl : ∀ x ∈ l, issue_category x = k) :
    l.Pairwise (fun a b => issue_category a ≤ issue_category b) :=
  List.pairwise_of_forall_mem_list
    (fun a ha b hb => by rw [hl a ha, hl b hb])

theorem pairwise_cat_three (A C M : List Issue)
    (hA : ∀ x ∈ A, issue_category x = 1) (hC : ∀ x ∈ C, issue_category x = 2)
    (hM : ∀ x ∈ M, issue_category x = 3) :
    (A ++ C ++ M).Pairwise (fun a b => issue_category a ≤ issue_category b) := by
  rw [List.pairwise_append]
  refine ⟨?_, pairwise_const_cat M 3 hM, ?_⟩
  · rw [List.pairwise_append]
    refine ⟨pairwise_const_cat A 1 hA, pairwise_const_cat C 2 hC, ?_⟩
    intro a ha b hb
    rw [hA a ha, hC b hb]
    omega
  · intro a ha b hb
    rw [List.mem_append] at ha
    rcases ha with ha | ha
    · rw [hA a ha, hM b hb]; omega
    · rw [hC a ha, hM b hb]; omega

/-- Claim C3: when the table is found, the issue list is ordered by category:
all added-in-model issues, then all changed issues, then all
missing-in-model issues, with no interleaving. -/
theorem schema_issue_order {ε : Type} (identifier : List String)
    (cols : List Column) (d : Dialect) (pairs : List Pair)
    (f : Option String → String → Except ε (Option TableDef))
    (t : String) (rest : List String) (td : TableDef)
    (h : identifier.reverse = t :: rest)
    (hf : f (unwrap_to_default_namespace (identifier.reverse.get? 1) d) t =
      .ok (some td)) :
    ∃ issues, schema identifier cols d pairs f = some (.ok issues) ∧
      issues.Pairwise (fun a b => issue_category a ≤ issue_category b) := by
  rw [h] at hf
  refine ⟨(struct_added td.columns cols).map
      (fun x => Issue.struct_added
        (unwrap_to_default_namespace ((t :: rest).get? 1) d) t x)
    ++ (build_diffs pairs td.columns cols).map
      (fun x => Issue.changed
        (unwrap_to_default_namespace ((t :: rest).get? 1) d) t x)
    ++ (struct_missing td.columns cols).map
      (fun x => Issue.struct_missing
        (unwrap_to_default_namespace ((t :: rest).get? 1) d) t x), ?_, ?_⟩
  · simp only [schema, h, List.head?_cons, hf]
  apply pairwise_cat_three
  · intro x hx
    rw [List.mem_map] at hx
    obtain ⟨a, _, rfl⟩ := hx
    rfl
  · intro x hx
    rw [List.mem_map] at hx
    obtain ⟨a, _, rfl⟩ := hx
    rfl
  · intro x hx
    rw [List.mem_map] at hx
    obtain ⟨a, _, rfl⟩ := hx
    rfl

theorem schema_issue_order_witness :
    ∃ issues, schema ["users"]
        [⟨"id", "i64", false⟩, ⟨"email", "string", true⟩] Dialect.Sqlite []
        (fun _ _ => (.ok (some ⟨[⟨"id", "INT4", false⟩, ⟨"name", "TEXT", true⟩]⟩) :
          Except String (Option TableDef))) =
        some (.ok issues) ∧
      issues.Pairwise (fun a b => issue_category a ≤ issue_category b) :=
  schema_issue_order ["users"]
    [⟨"id", "i64", false⟩, ⟨"email", "string", true⟩] Dialect.Sqlite []
    (fun _ _ => .ok (some ⟨[⟨"id", "INT4", false⟩, ⟨"name", "TEXT", true⟩]⟩))
    "users" [] ⟨[⟨"id", "INT4", false⟩, ⟨"name", "TEXT", true⟩]⟩ rfl rfl

/-- Claim C10: whenever the identifier path is non-empty, the table-name and
namespace extraction in the auditor are in bounds and the audit produces a
result; the empty path is the one shape on which the extraction fails. -/
theorem schema_identifier_bounds {ε : Type} (identifier : List String)
    (cols : List Column) (d : Dialect) (pairs : List Pair)
    (f : Option String → String → Except ε (Option TableDef)) :
    (identifier ≠ [] → (schema identifier cols d pairs f).isSome = true)
    ∧ schema ([] : List String) cols d pairs f = none := by
  constructor
  · intro hne
    cases hrev : identifier.reverse with
    | nil => exact absurd (List.reverse_eq_nil_iff.mp hrev) hne
    | cons t rest => simp [schema, hrev]
  · rfl

theorem schema_identifier_bounds_witness :
    (schema ["users"] [] Dialect.Mysql []
      (fun _ _ => (.ok none : Except String (Option TableDef)))).isSome = true :=
  (schema_identifier_bounds ["users"] [] Dialect.Mysql []
    (fun _ _ => .ok none)).1 (by simp)
